import Mathlib

/-!
Shallow embedding of the PeopleMarketCounter job/stream engine
(`src/app/jobs.py`, `src/app/detector.py`, `src/app/main.py`).

External collaborators (OpenCV capture/read/write, the YOLO model,
JPEG encoding, the wall clock) are modelled as oracles supplied in an
environment: each loop iteration receives the outcomes the outside
world would have produced (clock samples, the read result, the
detector's answer, the encoder's byte buffer, and whether an exception
was raised at some point of the iteration body).  The worker itself is
translated statement by statement from `JobManager._process_capture`.
-/

namespace PMC

/-- Python `round` on an exact rational: round half to even
(banker's rounding), as used in `int(round(source_fps / fps))`. -/
def pythonRound (q : ℚ) : ℤ :=
  let f := ⌊q⌋
  let r := q - (f : ℚ)
  if r < 1/2 then f
  else if 1/2 < r then f + 1
  else if f % 2 = 0 then f else f + 1

/-- Python `int()` truncation toward zero on an exact rational,
used for `int(now * 1000)`. -/
def pyTrunc (q : ℚ) : ℤ :=
  if 0 ≤ q then ⌊q⌋ else -⌊-q⌋

/-- Python truthiness of an optional string (`None` and `""` are falsy),
as in `if state.output_path:` and `job.output_media_type or default`. -/
def pyTruthy : Option String → Bool
  | none => false
  | some s => s ≠ ""

/-- Python `opt or default` on optional strings. -/
def pyOrStr (o : Option String) (d : String) : String :=
  match o with
  | none => d
  | some s => if s = "" then d else s

/-- `source.split("://")[0].lower() if "://" in source else "unknown"`
from `_process_capture`'s open-failure branch. -/
def schemeOf (source : String) : String :=
  let parts := source.splitOn "://"
  if parts.length ≥ 2 then (parts.headD source).toLower else "unknown"

/-- The message assigned to `state.error` when no backend opens the source. -/
def openFailMessage (source : String) : String :=
  "Failed to open video source. URL scheme: " ++ schemeOf source ++
    ". Check the URL/credentials and network access."

/-! ## Detector model (`src/app/detector.py`) -/

/-- Decoded images are opaque to the engine; only their identity matters. -/
abbrev Image := ℕ

/-- `PERSON_CLASS_ID = 0` in `detector.py`. -/
def PERSON_CLASS_ID : ℤ := 0

/-- One box of a YOLO prediction result: class id, the four `xyxy`
coordinates, and the confidence score. -/
structure PredBox where
  cls : ℤ
  x1 : ℚ
  y1 : ℚ
  x2 : ℚ
  y2 : ℚ
  conf : ℚ
deriving DecidableEq

/-- One element of `model.predict(...)`: `result.boxes` is either `None`
or a list of boxes. -/
abbrev PredResult := Option (List PredBox)

/-- The dict built for each kept box in `detect_people`. -/
structure DBox where
  x1 : ℚ
  y1 : ℚ
  x2 : ℚ
  y2 : ℚ
  conf : ℚ
deriving DecidableEq

/-- Conversion of a prediction box into the output dict
(`{"x1": ..., "y1": ..., "x2": ..., "y2": ..., "conf": score}`). -/
def boxToDict (b : PredBox) : DBox :=
  { x1 := b.x1, y1 := b.y1, x2 := b.x2, y2 := b.y2, conf := b.conf }

/-- Inner loop of `detect_people` over the boxes of one result:
skip non-person classes, append the dict, increment `count`. -/
def detectBoxesFold (bs : List PredBox) (acc : ℕ × List DBox) : ℕ × List DBox :=
  bs.foldl
    (fun acc2 b =>
      if b.cls ≠ PERSON_CLASS_ID then acc2
      else (acc2.1 + 1, acc2.2 ++ [boxToDict b]))
    acc

/-- `PeopleDetector.detect_people`: `None` image returns `(0, [])`;
otherwise fold over the prediction results (supplied by the external
model as an oracle), skipping results whose `boxes` is `None`. -/
def detect_people (image : Option Image) (results : List PredResult) :
    ℕ × List DBox :=
  match image with
  | none => (0, [])
  | some _ =>
    results.foldl
      (fun acc r =>
        match r with
        | none => acc
        | some bs => detectBoxesFold bs acc)
      (0, [])

/-- `encode_image_to_jpeg`: `b""` for a `None` image or a failed
`cv2.imencode`, else the encoded buffer (bytes as a list of naturals). -/
def encode_image_to_jpeg (image : Option Image)
    (imencodeResult : Option (List ℕ)) : List ℕ :=
  match image with
  | none => []
  | some _ =>
    match imencodeResult with
    | none => []
    | some buf => buf

/-! ## Job state and events (`src/app/jobs.py`) -/

/-- The mutable per-job record `JobState` of `jobs.py` (the
`created_at` wall-clock stamp is carried as an exact rational). -/
structure JobState where
  job_id : String
  status : String := "idle"
  current_count : ℕ := 0
  max_count : ℕ := 0
  frames : ℕ := 0
  error : Option String := none
  source_name : Option String := none
  source_type : Option String := none
  duration_seconds : Option ℚ := none
  output_path : Option String := none
  output_media_type : Option String := none
  output_filename : Option String := none
  last_frame : Option (List ℕ) := none
  last_frame_id : ℕ := 0
  created_at : ℚ := 0
deriving DecidableEq

/-- The payloads `_process_capture` hands to `_schedule_broadcast`. -/
inductive Event where
  | frame (frame_index : ℕ) (count : ℕ) (max_count : ℕ) (timestamp_ms : ℤ)
  | done (max_count : ℕ) (frames : ℕ) (video_url : Option String)
  | error (message : String)
deriving DecidableEq

/-- Is the payload a `"type": "frame"` event (`"done": false`)? -/
def isFrameEv : Event → Bool
  | .frame _ _ _ _ => true
  | _ => false

/-- Is the payload terminal (`"type": "done"` or `"type": "error"`)? -/
def isTerminalEv : Event → Bool
  | .frame _ _ _ _ => false
  | _ => true

/-- `max_count` field carried by an event, when it has one. -/
def evMax : Event → Option ℕ
  | .frame _ _ m _ => some m
  | .done m _ _ => some m
  | .error _ => none

/-- Frame-progress field carried by an event (`frame_index` for frame
events, `frames` for the done event), when it has one. -/
def evFrames : Event → Option ℕ
  | .frame i _ _ _ => some i
  | .done _ n _ => some n
  | .error _ => none

/-! ## The frame-processing loop -/

/-- A point of the loop body at which the external world may raise an
exception (covering `cap.read`, `detector.detect_people`,
`draw_boxes`/`writer.write`, and `encode_image_to_jpeg`). -/
inductive ExcPoint where
  | atRead
  | atDetect
  | atWrite
  | atEncode
deriving DecidableEq

/-- The exception raised at point `p` this iteration, if any. -/
def excAt (o : Option (ExcPoint × String)) (p : ExcPoint) : Option String :=
  match o with
  | none => none
  | some (q, m) => if q = p then some m else none

/-- Everything the outside world contributes to one loop iteration:
the clock at the budget check, the result of `cap.read()` (`none` means
`success` was false), the clock sample `now`, the detector's answer
(used only when this frame is analyzed), the encoder's buffer
(`[]` means `cv2.imencode` failed), and an optional raised exception. -/
structure IterIn where
  tCheck : ℚ
  read : Option Image
  tNow : ℚ
  detectCount : ℕ
  detectBoxes : List DBox
  enc : List ℕ
  exc : Option (ExcPoint × String)
deriving DecidableEq

/-- The loop-local variables of `_process_capture` together with the
job-state fields the loop mutates. -/
structure LoopSt where
  frame_index : ℕ
  last_emit : ℚ
  last_count : ℕ
  last_boxes : List DBox
  frames : ℕ
  current_count : ℕ
  max_count : ℕ
  last_frame : Option (List ℕ)
  last_frame_id : ℕ
deriving DecidableEq

/-- Loop configuration computed before entering `while True`. -/
structure LoopCfg where
  is_file : Bool
  interval : ℚ
  frame_skip : ℕ
  max_seconds : ℕ
  start_time : ℚ
deriving DecidableEq

/-- Why the loop stopped: time budget, `cap.read` unsuccessful, or an
exception propagated to the `except` clause. -/
inductive ExitReason where
  | budget
  | sourceEnd
  | raised (msg : String)
deriving DecidableEq

/-- Observable record of one completed iteration: the 1-based
`frame_index`, whether this frame was analyzed (`do_detect`), the boxes
retained from before the iteration, the boxes actually drawn onto the
frame, and the value of `state.frames` after the iteration. -/
structure IterTrace where
  idx : ℕ
  did : Bool
  retained : List DBox
  drawn : List DBox
  framesAfter : ℕ
deriving DecidableEq

/-- Result of one pass through the loop body. -/
inductive StepOut where
  | halt (reason : ExitReason) (st : LoopSt)
  | cont (st : LoopSt) (ev : Option Event) (tr : IterTrace)

/-- The loop state after a step, whichever way it went. -/
def stepSt : StepOut → LoopSt
  | .halt _ st => st
  | .cont st _ _ => st

/-- One pass through the body of `while True` in `_process_capture`,
translated in statement order: budget check, `cap.read()`,
`frame_index`/`state.frames` update, the `do_detect` decision, the
detector call and counter updates, drawing/writing, JPEG encoding and
snapshot update, and the conditional `frame` broadcast.  (The
real-time pacing `sleep` has no effect on state or events.) -/
def stepIter (cfg : LoopCfg) (st : LoopSt) (i : IterIn) : StepOut :=
  if cfg.max_seconds ≠ 0 ∧ i.tCheck - cfg.start_time > (cfg.max_seconds : ℚ) then
    .halt .budget st
  else
    match excAt i.exc .atRead with
    | some m => .halt (.raised m) st
    | none =>
      match i.read with
      | none => .halt .sourceEnd st
      | some _ =>
        let frame_index := st.frame_index + 1
        let st1 := { st with frame_index := frame_index, frames := frame_index }
        let do_detect : Bool :=
          if cfg.is_file then
            decide (cfg.frame_skip ≤ 1 ∨ frame_index % cfg.frame_skip = 0)
          else
            decide (cfg.interval = 0 ∨ i.tNow - st1.last_emit ≥ cfg.interval)
        let st2 := if do_detect then { st1 with last_emit := i.tNow } else st1
        match if do_detect then excAt i.exc .atDetect else none with
        | some m => .halt (.raised m) st2
        | none =>
          let st3 :=
            if do_detect then
              { st2 with
                last_count := i.detectCount
                last_boxes := i.detectBoxes
                current_count := i.detectCount
                max_count := max st2.max_count i.detectCount }
            else st2
          match excAt i.exc .atWrite with
          | some m => .halt (.raised m) st3
          | none =>
            match excAt i.exc .atEncode with
            | some m => .halt (.raised m) st3
            | none =>
              let st4 :=
                if i.enc ≠ [] then
                  { st3 with
                    last_frame := some i.enc
                    last_frame_id := st3.last_frame_id + 1 }
                else st3
              let ev :=
                if do_detect then
                  some (Event.frame frame_index st4.last_count st4.max_count
                    (pyTrunc (i.tNow * 1000)))
                else none
              let tr : IterTrace :=
                { idx := frame_index
                  did := do_detect
                  retained := st.last_boxes
                  drawn := st3.last_boxes
                  framesAfter := st4.frames }
              .cont st4 ev tr

/-- Result of running the loop to its exit. -/
structure LoopRes where
  fin : LoopSt
  events : List Event
  traces : List IterTrace
  exit : ExitReason
deriving DecidableEq

/-- Run the loop on the finite oracle of iteration inputs; an exhausted
oracle behaves like an unsuccessful `cap.read()` (the source has no
more frames to deliver). -/
def loopRun (cfg : LoopCfg) : List IterIn → LoopSt → LoopRes
  | [], st => { fin := st, events := [], traces := [], exit := .sourceEnd }
  | i :: rest, st =>
    match stepIter cfg st i with
    | .halt r st' => { fin := st', events := [], traces := [], exit := r }
    | .cont st' ev tr =>
      let r := loopRun cfg rest st'
      { fin := r.fin
        events := ev.toList ++ r.events
        traces := tr :: r.traces
        exit := r.exit }

/-! ## Writer negotiation and worker assembly -/

/-- The `(suffix, fourcc, media_type)` candidates tried for the output
writer of a file-backed job, in source order. -/
def writerCandidates : List (String × String × String) :=
  [ (".mp4", "avc1", "video/mp4")
  , (".mp4", "H264", "video/mp4")
  , (".mp4", "X264", "video/mp4")
  , (".webm", "VP80", "video/webm")
  , (".mp4", "mp4v", "video/mp4") ]

/-- First candidate index (from `k`) whose `cv2.VideoWriter` opens,
with its suffix and media type; the environment says which open calls
succeed and which temp-file names the OS hands out. -/
def pickWriterFrom (opens : List Bool) (tmps : List String) :
    ℕ → List (String × String × String) → Option (String × String × String)
  | _, [] => none
  | k, (suffix, _fourcc, media) :: rest =>
    if opens.getD k false then some (tmps.getD k "", media, suffix)
    else pickWriterFrom opens tmps (k + 1) rest

/-- `frame_skip` as computed for file sources:
`max(1, int(round(source_fps / fps)))` when both rates are positive,
else `1`; live sources leave it at its initial `0`. -/
def computeFrameSkip (is_file : Bool) (source_fps fps : ℚ) : ℕ :=
  if is_file then
    if source_fps > 0 ∧ fps > 0 then
      max 1 (pythonRound (source_fps / fps)).toNat
    else 1
  else 0

/-- `interval = 1.0 / fps if fps > 0 else 0.0`. -/
def computeInterval (fps : ℚ) : ℚ :=
  if fps > 0 then 1 / fps else 0

/-- Everything the outside world contributes to one worker run:
whether `_open_capture` produced an opened handle, the probed source
properties, which writer candidates open (with the temp names the OS
gives them), the clock at `start_time`, and the per-iteration oracle. -/
structure Env where
  capOk : Bool
  width : ℕ
  height : ℕ
  source_fps : ℚ
  writerOpens : List Bool
  tmpNames : List String
  start_time : ℚ
  iters : List IterIn
deriving DecidableEq

/-- Result of one worker run: the final job state, every payload handed
to `_schedule_broadcast` in order, the per-iteration trace, the files
present afterwards, and how (whether) the loop exited (`none` when the
worker returned from the open-failure branch before the loop). -/
structure RunRes where
  st : JobState
  events : List Event
  traces : List IterTrace
  fs : List String
  exit : Option ExitReason
deriving DecidableEq

/-- The output-writer negotiation block of `_process_capture`: for a
file job with known positive dimensions, the first `(suffix, fourcc,
media_type)` candidate whose writer opens puts its path, media type
and suggested filename on the job state; the job state is otherwise
untouched. -/
def negotiateWriter (job_id : String) (env : Env) (st0 : JobState)
    (is_file : Bool) : JobState :=
  if is_file ∧ env.width > 0 ∧ env.height > 0 then
    match pickWriterFrom env.writerOpens env.tmpNames 0 writerCandidates with
    | some (path, media, suffix) =>
      { st0 with
        output_path := some path
        output_media_type := some media
        output_filename := some (job_id ++ suffix) }
    | none => st0
  else st0

/-- The loop configuration `_process_capture` sets up before `while True`. -/
def cfgOf (fps : ℚ) (max_seconds : ℕ) (is_file : Bool) (env : Env) : LoopCfg :=
  { is_file := is_file
    interval := computeInterval fps
    frame_skip := computeFrameSkip is_file env.source_fps fps
    max_seconds := max_seconds
    start_time := env.start_time }

/-- The initial loop state (`frame_index = 0`, `last_emit = 0.0`,
`last_boxes = []`, `last_count = 0`) paired with the job-state fields
the loop mutates. -/
def lsOf (st1 : JobState) : LoopSt :=
  { frame_index := 0, last_emit := 0, last_count := 0, last_boxes := []
    frames := st1.frames, current_count := st1.current_count
    max_count := st1.max_count, last_frame := st1.last_frame
    last_frame_id := st1.last_frame_id }

/-- The `try`/`except`/`finally` tail of `_process_capture`: run the
loop, on a raised exception mark the job `error` and broadcast the
`error` event, release resources and (for file sources) delete the
temporary input, promote a non-`error` status to `done`, and broadcast
the final `done` event (with a `video_url` when an output path is
recorded). -/
def runLoopAndFinish (job_id source : String) (fps : ℚ) (max_seconds : ℕ)
    (is_file : Bool) (env : Env) (st1 : JobState) (fs0 : List String) :
    RunRes :=
  let lr := loopRun (cfgOf fps max_seconds is_file env) env.iters (lsOf st1)
  let st2 :=
    { st1 with
      frames := lr.fin.frames
      current_count := lr.fin.current_count
      max_count := lr.fin.max_count
      last_frame := lr.fin.last_frame
      last_frame_id := lr.fin.last_frame_id }
  let excPart : JobState × List Event :=
    match lr.exit with
    | .raised msg =>
      ({ st2 with status := "error", error := some msg }, [.error msg])
    | _ => (st2, [])
  let st3 := excPart.1
  let fs1 := if is_file then fs0.filter (fun p => p ≠ source) else fs0
  let st4 :=
    { st3 with status := if st3.status ≠ "error" then "done" else st3.status }
  let doneEv :=
    Event.done st4.max_count st4.frames
      (if pyTruthy st4.output_path then
        some ("/api/job/" ++ job_id ++ "/video")
      else none)
  { st := st4
    events := lr.events ++ excPart.2 ++ [doneEv]
    traces := lr.traces
    fs := fs1
    exit := some lr.exit }

/-- `JobManager._process_capture`, translated in statement order.
The job-registry lookup is assumed to succeed (the worker is spawned
only for a job just created); the filesystem is the list of paths that
exist, and `os.remove(source)` (its `OSError` swallowed) removes the
path.  The `append_history` call goes to the out-of-scope audit
collaborator and touches no job state or event.  When no backend opens
the source (`capOk = false`) the worker sets the error status and
message, broadcasts the `error` event and returns at once — before the
`try`/`finally` block. -/
def processCapture (job_id source : String) (fps : ℚ) (max_seconds : ℕ)
    (is_file : Bool) (env : Env) (st0 : JobState) (fs0 : List String) :
    RunRes :=
  if env.capOk = false then
    let msg := openFailMessage source
    { st := { st0 with status := "error", error := some msg }
      events := [.error msg]
      traces := []
      fs := fs0
      exit := none }
  else
    runLoopAndFinish job_id source fps max_seconds is_file env
      (negotiateWriter job_id env st0 is_file) fs0

/-! ## Capture acquisition (`JobManager._open_capture`) -/

/-- The OpenCV backend constants `_open_capture` may request. -/
inductive Backend where
  | FFMPEG
  | GSTREAMER
  | MSMF
  | ANY
deriving DecidableEq

/-- What the local OpenCV build and the source decide for
`_open_capture`: which backend constants exist (`getattr(cv2, name,
None)` is not `None`), which open attempts report `isOpened()`
(including the final attempt with no explicit backend), and whether the
timeout properties exist on this build. -/
structure CvEnv where
  hasFFMPEG : Bool
  hasGSTREAMER : Bool
  hasMSMF : Bool
  hasANY : Bool
  openFFMPEG : Bool
  openGSTREAMER : Bool
  openMSMF : Bool
  openANY : Bool
  openDefault : Bool
  hasOpenTimeoutProp : Bool
  hasReadTimeoutProp : Bool
deriving DecidableEq

/-- Is the backend constant present on this build? -/
def present (e : CvEnv) : Backend → Bool
  | .FFMPEG => e.hasFFMPEG
  | .GSTREAMER => e.hasGSTREAMER
  | .MSMF => e.hasMSMF
  | .ANY => e.hasANY

/-- Does `cv2.VideoCapture(source, backend)` report `isOpened()`? -/
def opensB (e : CvEnv) : Backend → Bool
  | .FFMPEG => e.openFFMPEG
  | .GSTREAMER => e.openGSTREAMER
  | .MSMF => e.openMSMF
  | .ANY => e.openANY

/-- Side effects `_open_capture` performs, in order: setting the FFMPEG
RTSP capture options, constructing a capture (`none` = no explicit
backend), setting a timeout property, releasing, accepting. -/
inductive CvAction where
  | setRtspOptions (optionsString : String)
  | openAttempt (b : Option Backend)
  | setOpenTimeout (ms : ℕ)
  | setReadTimeout (ms : ℕ)
  | release (b : Option Backend)
  | accept (b : Option Backend)
deriving DecidableEq

/-- The `cap.set` timeout calls made for live sources right after each
explicit-backend construction, guarded by `hasattr` checks. -/
def timeoutActions (e : CvEnv) (is_file : Bool) (timeout_ms : ℕ) :
    List CvAction :=
  if is_file then []
  else
    (if e.hasOpenTimeoutProp then [CvAction.setOpenTimeout timeout_ms] else []) ++
    (if e.hasReadTimeoutProp then [CvAction.setReadTimeout timeout_ms] else [])

/-- The `for backend in backends` loop: skip absent constants, open,
configure timeouts for live sources, accept the first candidate that
is opened, release the others. -/
def tryBackends (e : CvEnv) (is_file : Bool) (timeout_ms : ℕ) :
    List Backend → Option Backend × List CvAction
  | [] => (none, [])
  | b :: rest =>
    if present e b = false then tryBackends e is_file timeout_ms rest
    else
      let opened := CvAction.openAttempt (some b) :: timeoutActions e is_file timeout_ms
      if opensB e b then (some b, opened ++ [CvAction.accept (some b)])
      else
        let r := tryBackends e is_file timeout_ms rest
        (r.1, opened ++ [CvAction.release (some b)] ++ r.2)

/-- The backend candidate list of `_open_capture`: `[CAP_FFMPEG,
CAP_ANY]` for files, `[CAP_FFMPEG, CAP_GSTREAMER, CAP_MSMF, CAP_ANY]`
for live sources. -/
def backendList (is_file : Bool) : List Backend :=
  if is_file then [.FFMPEG, .ANY]
  else [.FFMPEG, .GSTREAMER, .MSMF, .ANY]

/-- Python `x if x else default` for the optional numeric timeouts
(`None` and `0` are falsy). -/
def pyOrNat (o : Option ℕ) (d : ℕ) : ℕ :=
  match o with
  | none => d
  | some v => if v = 0 then d else v

/-- `JobManager._open_capture` as a result plus its ordered action
trace: `some b` in the first component means an accepted capture (with
`b = none` for the final attempt made with no explicit backend);
`none` means every attempt failed. -/
def open_capture (e : CvEnv) (source : String) (is_file : Bool)
    (open_timeout_ms ffmpeg_timeout_us : Option ℕ) :
    Option (Option Backend) × List CvAction :=
  let rtspActs : List CvAction :=
    if is_file = false ∧ source.toLower.startsWith "rtsp://" then
      [CvAction.setRtspOptions
        ("rtsp_transport;tcp|stimeout;" ++
          toString (pyOrNat ffmpeg_timeout_us 5000000))]
    else []
  let timeout_ms := pyOrNat open_timeout_ms 5000
  let tb := tryBackends e is_file timeout_ms (backendList is_file)
  match tb.1 with
  | some b => (some (some b), rtspActs ++ tb.2 ++ [])
  | none =>
    if e.openDefault then
      (some none, rtspActs ++ tb.2 ++
        [CvAction.openAttempt none, CvAction.accept none])
    else
      (none, rtspActs ++ tb.2 ++
        [CvAction.openAttempt none, CvAction.release none])

/-! ## The download endpoint (`src/app/main.py`, `get_job_video`) -/

/-- Outcome of `GET /api/job/{job_id}/video`: either the file response
(path, media type, suggested filename) or an HTTP 404 with its detail. -/
inductive VideoResponse where
  | fileRes (path media filename : String)
  | notFound (detail : String)
deriving DecidableEq

/-- `get_job_video`: 404 for an unknown job; 404 while the job is not
`done` or has no (truthy) output path; otherwise a `FileResponse` with
the recorded path, `output_media_type or "video/mp4"`, and
`output_filename or f"{job_id}.mp4"`.  It only reads the registry. -/
def get_job_video (jobs : List (String × JobState)) (job_id : String) :
    VideoResponse :=
  match jobs.lookup job_id with
  | none => .notFound "Job not found"
  | some job =>
    if job.status ≠ "done" ∨ pyTruthy job.output_path = false then
      .notFound "Processed video not available"
    else
      .fileRes (job.output_path.getD "")
        (pyOrStr job.output_media_type "video/mp4")
        (pyOrStr job.output_filename (job_id ++ ".mp4"))

/-! ## Helper projections and step lemmas -/

/-- The event emitted by a step, if any. -/
def stepEv : StepOut → Option Event
  | .halt _ _ => none
  | .cont _ ev _ => ev

/-- The trace entry produced by a completed step, if any. -/
def stepTr : StepOut → Option IterTrace
  | .halt _ _ => none
  | .cont _ _ tr => tr

/-- `count` field carried by an event, when it has one. -/
def evCount : Event → Option ℕ
  | .frame _ c _ _ => some c
  | _ => none

theorem step_basic (cfg : LoopCfg) (st : LoopSt) (i : IterIn) :
    st.max_count ≤ (stepSt (stepIter cfg st i)).max_count ∧
    st.frame_index ≤ (stepSt (stepIter cfg st i)).frame_index ∧
    (st.frames = st.frame_index →
      (stepSt (stepIter cfg st i)).frames = (stepSt (stepIter cfg st i)).frame_index ∧
      st.frames ≤ (stepSt (stepIter cfg st i)).frames) ∧
    (st.current_count ≤ st.max_count →
      (stepSt (stepIter cfg st i)).current_count ≤ (stepSt (stepIter cfg st i)).max_count) := by
  simp only [stepIter]
  repeat' split
  all_goals simp_all [stepSt]

theorem step_ev (cfg : LoopCfg) (st : LoopSt) (i : IterIn) :
    ∀ e ∈ (stepEv (stepIter cfg st i)).toList,
      isFrameEv e = true ∧
      evMax e = some (stepSt (stepIter cfg st i)).max_count ∧
      evFrames e = some (stepSt (stepIter cfg st i)).frame_index ∧
      ∀ c ∈ (evCount e), c ≤ (stepSt (stepIter cfg st i)).max_count := by
  simp only [stepIter]
  repeat' split
  all_goals simp_all [stepSt, stepEv, isFrameEv, evMax, evFrames, evCount]

theorem step_tr (cfg : LoopCfg) (st : LoopSt) (i : IterIn) :
    ∀ tr ∈ (stepTr (stepIter cfg st i)).toList,
      tr.idx = st.frame_index + 1 ∧
      tr.framesAfter = tr.idx ∧
      tr.retained = st.last_boxes ∧
      (cfg.is_file = true →
        tr.did = decide (cfg.frame_skip ≤ 1 ∨ tr.idx % cfg.frame_skip = 0)) ∧
      (tr.did = false → tr.drawn = tr.retained) ∧
      (tr.did = true → tr.drawn = i.detectBoxes) ∧
      (stepSt (stepIter cfg st i)).last_boxes = tr.drawn ∧
      (stepSt (stepIter cfg st i)).frame_index = tr.idx := by
  simp only [stepIter]
  repeat' split
  all_goals simp_all [stepSt, stepTr]

theorem step_snap (cfg : LoopCfg) (st : LoopSt) (i : IterIn) :
    ((st.last_frame_id > 0 → ∃ b, st.last_frame = some b ∧ b ≠ []) →
      ((stepSt (stepIter cfg st i)).last_frame_id > 0 →
        ∃ b, (stepSt (stepIter cfg st i)).last_frame = some b ∧ b ≠ [])) ∧
    (i.enc = [] →
      (stepSt (stepIter cfg st i)).last_frame = st.last_frame ∧
      (stepSt (stepIter cfg st i)).last_frame_id = st.last_frame_id) ∧
    ((stepSt (stepIter cfg st i)).last_frame_id ≠ st.last_frame_id →
      (stepSt (stepIter cfg st i)).last_frame = some i.enc ∧ i.enc ≠ [] ∧
      (stepSt (stepIter cfg st i)).last_frame_id = st.last_frame_id + 1) := by
  simp only [stepIter]
  repeat' split
  all_goals simp_all [stepSt]

/-! ## Loop-level lemmas -/

theorem loop_fin (cfg : LoopCfg) (l : List IterIn) (st : LoopSt)
    (hfi : st.frames = st.frame_index)
    (hcm : st.current_count ≤ st.max_count) :
    st.max_count ≤ (loopRun cfg l st).fin.max_count ∧
    (loopRun cfg l st).fin.frames = (loopRun cfg l st).fin.frame_index ∧
    st.frame_index ≤ (loopRun cfg l st).fin.frame_index ∧
    (loopRun cfg l st).fin.current_count ≤ (loopRun cfg l st).fin.max_count := by
  induction l generalizing st with
  | nil => simp [loopRun, hfi, hcm]
  | cons i rest ih =>
    simp only [loopRun]
    rcases hs : stepIter cfg st i with ⟨r, st'⟩ | ⟨st', ev, tr⟩
    · have B := step_basic cfg st i
      rw [hs] at B
      simp only [stepSt] at B
      exact ⟨B.1, (B.2.2.1 hfi).1, B.2.1, B.2.2.2 hcm⟩
    · have B := step_basic cfg st i
      rw [hs] at B
      simp only [stepSt] at B
      have IH := ih st' (B.2.2.1 hfi).1 (B.2.2.2 hcm)
      exact ⟨le_trans B.1 IH.1, IH.2.1, le_trans B.2.1 IH.2.2.1, IH.2.2.2⟩

theorem loop_events_frame (cfg : LoopCfg) (l : List IterIn) (st : LoopSt) :
    ∀ e ∈ (loopRun cfg l st).events, isFrameEv e = true := by
  induction l generalizing st with
  | nil => simp [loopRun]
  | cons i rest ih =>
    simp only [loopRun]
    rcases hs : stepIter cfg st i with ⟨r, st'⟩ | ⟨st', ev, tr⟩
    · simp
    · intro e he
      simp only [List.mem_append] at he
      rcases he with he | he
      · have E := step_ev cfg st i
        rw [hs] at E
        simp only [stepEv] at E
        exact (E e he).1
      · exact ih st' e he

theorem loop_evmax (cfg : LoopCfg) (l : List IterIn) (st : LoopSt)
    (hfi : st.frames = st.frame_index)
    (hcm : st.current_count ≤ st.max_count) :
    (∀ m ∈ (loopRun cfg l st).events.filterMap evMax,
      st.max_count ≤ m ∧ m ≤ (loopRun cfg l st).fin.max_count) ∧
    List.Pairwise (· ≤ ·) ((loopRun cfg l st).events.filterMap evMax) := by
  induction l generalizing st with
  | nil => simp [loopRun]
  | cons i rest ih =>
    simp only [loopRun]
    rcases hs : stepIter cfg st i with ⟨r, st'⟩ | ⟨st', ev, tr⟩
    · simp
    · have B := step_basic cfg st i
      rw [hs] at B
      simp only [stepSt] at B
      have hfi' := (B.2.2.1 hfi).1
      have hcm' := B.2.2.2 hcm
      have IH := ih st' hfi' hcm'
      have F := loop_fin cfg rest st' hfi' hcm'
      have E := step_ev cfg st i
      rw [hs] at E
      simp only [stepEv, stepSt] at E
      simp only [List.filterMap_append]
      constructor
      · intro m hm
        rcases List.mem_append.mp hm with hm | hm
        · rcases ev with _ | e
          · simp at hm
          · simp only [Option.toList_some, List.filterMap] at hm
            have He := E e (by simp)
            rcases hev : evMax e with _ | v
            · simp [hev] at hm
            · simp [hev] at hm
              subst hm
              rw [He.2.1] at hev
              cases hev
              exact ⟨B.1, F.1⟩
        · exact ⟨le_trans B.1 (IH.1 m hm).1, (IH.1 m hm).2⟩
      · rcases ev with _ | e
        · simpa using IH.2
        · simp only [Option.toList_some, List.filterMap]
          have He := E e (by simp)
          rcases hev : evMax e with _ | v
          · simpa [hev] using IH.2
          · rw [He.2.1] at hev
            cases hev
            simp only [List.singleton_append, List.pairwise_cons]
            exact ⟨fun m hm => (IH.1 m hm).1, IH.2⟩

theorem loop_evframes (cfg : LoopCfg) (l : List IterIn) (st : LoopSt)
    (hfi : st.frames = st.frame_index)
    (hcm : st.current_count ≤ st.max_count) :
    (∀ n ∈ (loopRun cfg l st).events.filterMap evFrames,
      st.frame_index ≤ n ∧ n ≤ (loopRun cfg l st).fin.frame_index) ∧
    List.Pairwise (· ≤ ·) ((loopRun cfg l st).events.filterMap evFrames) := by
  induction l generalizing st with
  | nil => simp [loopRun]
  | cons i rest ih =>
    simp only [loopRun]
    rcases hs : stepIter cfg st i with ⟨r, st'⟩ | ⟨st', ev, tr⟩
    · simp
    · have B := step_basic cfg st i
      rw [hs] at B
      simp only [stepSt] at B
      have hfi' := (B.2.2.1 hfi).1
      have hcm' := B.2.2.2 hcm
      have IH := ih st' hfi' hcm'
      have F := loop_fin cfg rest st' hfi' hcm'
      have E := step_ev cfg st i
      rw [hs] at E
      simp only [stepEv, stepSt] at E
      simp only [List.filterMap_append]
      constructor
      · intro n hn
        rcases List.mem_append.mp hn with hn | hn
        · rcases ev with _ | e
          · simp at hn
          · simp only [Option.toList_some, List.filterMap] at hn
            have He := E e (by simp)
            rcases hev : evFrames e with _ | v
            · simp [hev] at hn
            · simp [hev] at hn
              subst hn
              rw [He.2.2.1] at hev
              cases hev
              exact ⟨B.2.1, F.2.2.1⟩
        · exact ⟨le_trans B.2.1 (IH.1 n hn).1, (IH.1 n hn).2⟩
      · rcases ev with _ | e
        · simpa using IH.2
        · simp only [Option.toList_some, List.filterMap]
          have He := E e (by simp)
          rcases hev : evFrames e with _ | v
          · simpa [hev] using IH.2
          · rw [He.2.2.1] at hev
            cases hev
            simp only [List.singleton_append, List.pairwise_cons]
            exact ⟨fun n hn => (IH.1 n hn).1, IH.2⟩

theorem loop_count_le_max (cfg : LoopCfg) (l : List IterIn) (st : LoopSt) :
    ∀ e ∈ (loopRun cfg l st).events, ∀ c ∈ evCount e, ∀ m ∈ evMax e, c ≤ m := by
  induction l generalizing st with
  | nil => simp [loopRun]
  | cons i rest ih =>
    simp only [loopRun]
    rcases hs : stepIter cfg st i with ⟨r, st'⟩ | ⟨st', ev, tr⟩
    · simp
    · intro e he c hc m hm
      rcases List.mem_append.mp he with he | he
      · have E := step_ev cfg st i
        rw [hs] at E
        simp only [stepEv, stepSt] at E
        have He := E e he
        have hcle := He.2.2.2 c hc
        have : st'.max_count = m := by
          have := He.2.1
          rw [this] at hm
          simpa using hm
        omega
      · exact ih st' e he c hc m hm

theorem loop_snap (cfg : LoopCfg) (l : List IterIn) (st : LoopSt)
    (hP : st.last_frame_id > 0 → ∃ b, st.last_frame = some b ∧ b ≠ []) :
    (loopRun cfg l st).fin.last_frame_id > 0 →
      ∃ b, (loopRun cfg l st).fin.last_frame = some b ∧ b ≠ [] := by
  induction l generalizing st with
  | nil => simpa [loopRun] using hP
  | cons i rest ih =>
    simp only [loopRun]
    rcases hs : stepIter cfg st i with ⟨r, st'⟩ | ⟨st', ev, tr⟩
    · have S := step_snap cfg st i
      rw [hs] at S
      simp only [stepSt] at S
      exact S.1 hP
    · have S := step_snap cfg st i
      rw [hs] at S
      simp only [stepSt] at S
      exact ih st' (S.1 hP)

theorem loop_traces (cfg : LoopCfg) (l : List IterIn) (st : LoopSt) :
    (∀ k, ∀ h : k < (loopRun cfg l st).traces.length,
      ((loopRun cfg l st).traces.get ⟨k, h⟩).idx = st.frame_index + k + 1) ∧
    (∀ tr ∈ (loopRun cfg l st).traces,
      tr.framesAfter = tr.idx ∧
      (cfg.is_file = true →
        tr.did = decide (cfg.frame_skip ≤ 1 ∨ tr.idx % cfg.frame_skip = 0)) ∧
      (tr.did = false → tr.drawn = tr.retained)) ∧
    List.Chain' (fun a b => b.retained = a.drawn) (loopRun cfg l st).traces ∧
    (∀ tr0 ∈ (loopRun cfg l st).traces.head?, tr0.retained = st.last_boxes) := by
  induction l generalizing st with
  | nil => simp [loopRun]
  | cons i rest ih =>
    simp only [loopRun]
    rcases hs : stepIter cfg st i with ⟨r, st'⟩ | ⟨st', ev, tr⟩
    · simp [loopRun]
    · have B := step_basic cfg st i
      rw [hs] at B
      simp only [stepSt] at B
      have T := step_tr cfg st i
      rw [hs] at T
      simp only [stepTr, stepSt] at T
      have Ht := T tr (by simp)
      have IH := ih st'
      refine ⟨?_, ?_, ?_, ?_⟩
      · intro k h
        match k with
        | 0 => simpa using Ht.1
        | k + 1 =>
          have h' : k < (loopRun cfg rest st').traces.length := by
            simpa using h
          have hk := IH.1 k h'
          have hfi : st'.frame_index = st.frame_index + 1 := by
            rw [Ht.2.2.2.2.2.2.2, Ht.1]
          simp only [List.get_cons_succ]
          rw [hk, hfi]
          omega
      · intro tr2 htr2
        rcases List.mem_cons.mp htr2 with rfl | htr2
        · exact ⟨Ht.2.1, Ht.2.2.2.1, Ht.2.2.2.2.1⟩
        · exact IH.2.1 tr2 htr2
      · rw [List.chain'_cons']
        refine ⟨?_, IH.2.2.1⟩
        intro b hb
        have := IH.2.2.2 b hb
        rw [this, Ht.2.2.2.2.2.2.1]
      · intro tr0 htr0
        simp only [List.head?_cons, Option.mem_some_iff] at htr0
        subst htr0
        exact Ht.2.2.1

/-! ## Detector fold lemmas -/

theorem detectBoxesFold_inv (bs : List PredBox) (acc : ℕ × List DBox) :
    ((acc.1 = acc.2.length → (detectBoxesFold bs acc).1 = (detectBoxesFold bs acc).2.length) ∧
     ∀ d ∈ (detectBoxesFold bs acc).2,
       d ∈ acc.2 ∨ ∃ b ∈ bs, b.cls = PERSON_CLASS_ID ∧ boxToDict b = d) := by
  induction bs generalizing acc with
  | nil => simp [detectBoxesFold]
  | cons b rest ih =>
    simp only [detectBoxesFold, List.foldl_cons]
    by_cases hc : b.cls = PERSON_CLASS_ID
    · simp only [hc, ne_eq, not_true_eq_false, if_false, ite_false]
      have IH := ih (acc.1 + 1, acc.2 ++ [boxToDict b])
      simp only [detectBoxesFold] at IH
      constructor
      · intro hlen
        apply IH.1
        simp [hlen]
      · intro d hd
        rcases IH.2 d hd with h | ⟨b', hb', h1, h2⟩
        · rcases List.mem_append.mp h with h | h
          · exact Or.inl h
          · simp only [List.mem_singleton] at h
            exact Or.inr ⟨b, List.mem_cons_self _ _, hc, h.symm⟩
        · exact Or.inr ⟨b', List.mem_cons_of_mem _ hb', h1, h2⟩
    · simp only [hc, ne_eq, not_false_eq_true, if_true, ite_true]
      have IH := ih acc
      simp only [detectBoxesFold] at IH
      refine ⟨IH.1, ?_⟩
      intro d hd
      rcases IH.2 d hd with h | ⟨b', hb', h1, h2⟩
      · exact Or.inl h
      · exact Or.inr ⟨b', List.mem_cons_of_mem _ hb', h1, h2⟩

theorem detectResultsFold_inv (results : List PredResult) (acc : ℕ × List DBox) :
    ((acc.1 = acc.2.length →
      (results.foldl
        (fun a r => match r with | none => a | some bs => detectBoxesFold bs a) acc).1 =
      (results.foldl
        (fun a r => match r with | none => a | some bs => detectBoxesFold bs a) acc).2.length) ∧
     ∀ d ∈ (results.foldl
        (fun a r => match r with | none => a | some bs => detectBoxesFold bs a) acc).2,
       d ∈ acc.2 ∨ ∃ r ∈ results, ∃ bs, r = some bs ∧
         ∃ b ∈ bs, b.cls = PERSON_CLASS_ID ∧ boxToDict b = d) := by
  induction results generalizing acc with
  | nil => simp
  | cons r rest ih =>
    simp only [List.foldl_cons]
    rcases r with _ | bs
    · have IH := ih acc
      refine ⟨IH.1, ?_⟩
      intro d hd
      rcases IH.2 d hd with h | ⟨r', hr', bs', h1, h2⟩
      · exact Or.inl h
      · exact Or.inr ⟨r', List.mem_cons_of_mem _ hr', bs', h1, h2⟩
    · have IH := ih (detectBoxesFold bs acc)
      have DB := detectBoxesFold_inv bs acc
      constructor
      · intro hlen
        exact IH.1 (DB.1 hlen)
      · intro d hd
        rcases IH.2 d hd with h | ⟨r', hr', bs', h1, h2⟩
        · rcases DB.2 d h with h | ⟨b, hb, h1, h2⟩
          · exact Or.inl h
          · exact Or.inr ⟨some bs, List.mem_cons_self _ _, bs, rfl, b, hb, h1, h2⟩
        · exact Or.inr ⟨r', List.mem_cons_of_mem _ hr', bs', h1, h2⟩

/-- Writer negotiation only touches the output fields of the job. -/
theorem negotiateWriter_fields (job_id : String) (env : Env) (st0 : JobState)
    (is_file : Bool) :
    (negotiateWriter job_id env st0 is_file).frames = st0.frames ∧
    (negotiateWriter job_id env st0 is_file).current_count = st0.current_count ∧
    (negotiateWriter job_id env st0 is_file).max_count = st0.max_count ∧
    (negotiateWriter job_id env st0 is_file).status = st0.status ∧
    (negotiateWriter job_id env st0 is_file).error = st0.error ∧
    (negotiateWriter job_id env st0 is_file).last_frame = st0.last_frame ∧
    (negotiateWriter job_id env st0 is_file).last_frame_id = st0.last_frame_id := by
  unfold negotiateWriter
  repeat' split
  all_goals simp

/-- Monotone chains stay monotone when a dominating element is appended. -/
theorem pairwise_le_append_single (l : List ℕ) (x : ℕ)
    (hp : List.Pairwise (· ≤ ·) l) (hb : ∀ a ∈ l, a ≤ x) :
    List.Pairwise (· ≤ ·) (l ++ [x]) := by
  rw [List.pairwise_append]
  refine ⟨hp, List.pairwise_singleton _ _, ?_⟩
  intro a ha b hb2
  rcases List.mem_singleton.mp hb2 with rfl
  exact hb a ha

/-- The event stream of the loop tail: the loop's frame events, then
the `error` event exactly when an exception was raised, then the one
final `done` event built from the final counters. -/
theorem runLoopAndFinish_events_shape (job_id source : String) (fps : ℚ)
    (max_seconds : ℕ) (is_file : Bool) (env : Env) (st1 : JobState)
    (fs0 : List String) :
    ∃ excEvs,
      (runLoopAndFinish job_id source fps max_seconds is_file env st1 fs0).events =
        (loopRun (cfgOf fps max_seconds is_file env) env.iters (lsOf st1)).events ++
        excEvs ++
        [Event.done
          (loopRun (cfgOf fps max_seconds is_file env) env.iters (lsOf st1)).fin.max_count
          (loopRun (cfgOf fps max_seconds is_file env) env.iters (lsOf st1)).fin.frames
          (if pyTruthy st1.output_path = true then
            some ("/api/job/" ++ job_id ++ "/video")
          else none)] ∧
      (excEvs = [] ∨ ∃ m, excEvs = [Event.error m]) := by
  simp only [runLoopAndFinish]
  rcases hx : (loopRun (cfgOf fps max_seconds is_file env) env.iters (lsOf st1)).exit
    with _ | _ | m
  · exact ⟨[], by simp, Or.inl rfl⟩
  · exact ⟨[], by simp, Or.inl rfl⟩
  · exact ⟨[Event.error m], by simp, Or.inr ⟨m, rfl⟩⟩

/-- The final job state of the loop tail carries precisely the final
loop counters and snapshot. -/
theorem runLoopAndFinish_st (job_id source : String) (fps : ℚ)
    (max_seconds : ℕ) (is_file : Bool) (env : Env) (st1 : JobState)
    (fs0 : List String) :
    (runLoopAndFinish job_id source fps max_seconds is_file env st1 fs0).st.max_count =
      (loopRun (cfgOf fps max_seconds is_file env) env.iters (lsOf st1)).fin.max_count ∧
    (runLoopAndFinish job_id source fps max_seconds is_file env st1 fs0).st.current_count =
      (loopRun (cfgOf fps max_seconds is_file env) env.iters (lsOf st1)).fin.current_count ∧
    (runLoopAndFinish job_id source fps max_seconds is_file env st1 fs0).st.frames =
      (loopRun (cfgOf fps max_seconds is_file env) env.iters (lsOf st1)).fin.frames ∧
    (runLoopAndFinish job_id source fps max_seconds is_file env st1 fs0).st.last_frame =
      (loopRun (cfgOf fps max_seconds is_file env) env.iters (lsOf st1)).fin.last_frame ∧
    (runLoopAndFinish job_id source fps max_seconds is_file env st1 fs0).st.last_frame_id =
      (loopRun (cfgOf fps max_seconds is_file env) env.iters (lsOf st1)).fin.last_frame_id := by
  simp only [runLoopAndFinish]
  rcases (loopRun (cfgOf fps max_seconds is_file env) env.iters (lsOf st1)).exit
    with _ | _ | m
  all_goals simp

/-! ## Claim theorems -/

/-- C10: for every input image and model prediction, `detect_people`
returns a count equal to the length of the returned box list, every
returned box is the dict of a predicted box of the person class, and a
`None` image yields exactly `(0, [])`. -/
theorem detect_people_count_boxes (image : Option Image) (results : List PredResult) :
    (detect_people image results).1 = (detect_people image results).2.length ∧
    (∀ d ∈ (detect_people image results).2,
      ∃ r ∈ results, ∃ bs, r = some bs ∧
        ∃ b ∈ bs, b.cls = PERSON_CLASS_ID ∧ boxToDict b = d) ∧
    detect_people none results = (0, []) := by
  rcases image with _ | img
  · simp [detect_people]
  · have H := detectResultsFold_inv results (0, [])
    refine ⟨?_, ?_, rfl⟩
    · simpa only [detect_people] using H.1 rfl
    · intro d hd
      simp only [detect_people] at hd
      rcases H.2 d hd with h | h
      · simp at h
      · exact h

theorem detect_people_count_boxes_witness :
    (detect_people (some 0) [some [⟨0, 1, 2, 3, 4, 1/2⟩]]).1 =
      (detect_people (some 0) [some [⟨0, 1, 2, 3, 4, 1/2⟩]]).2.length ∧
    (∀ d ∈ (detect_people (some 0) [some [⟨0, 1, 2, 3, 4, 1/2⟩]]).2,
      ∃ r ∈ [some [(⟨0, 1, 2, 3, 4, 1/2⟩ : PredBox)]], ∃ bs, r = some bs ∧
        ∃ b ∈ bs, b.cls = PERSON_CLASS_ID ∧ boxToDict b = d) ∧
    detect_people none [some [⟨0, 1, 2, 3, 4, 1/2⟩]] = (0, []) :=
  detect_people_count_boxes (some 0) [some [⟨0, 1, 2, 3, 4, 1/2⟩]]

/-- C8: `get_job_video` returns the recorded output file exactly when
the job exists, its status is `"done"`, and a (truthy) output path is
recorded; in every other case it answers 404 not-found.  The embedding
is a pure read of the registry, so no job state is modified. -/
theorem get_job_video_iff (jobs : List (String × JobState)) (job_id : String) :
    ((∃ p m f, get_job_video jobs job_id = .fileRes p m f) ↔
      (∃ job, jobs.lookup job_id = some job ∧ job.status = "done" ∧
        pyTruthy job.output_path = true)) ∧
    (jobs.lookup job_id = none →
      get_job_video jobs job_id = .notFound "Job not found") ∧
    (∀ job, jobs.lookup job_id = some job →
      (job.status ≠ "done" ∨ pyTruthy job.output_path = false) →
      get_job_video jobs job_id = .notFound "Processed video not available") ∧
    (∀ job, jobs.lookup job_id = some job → job.status = "done" →
      pyTruthy job.output_path = true →
      get_job_video jobs job_id =
        .fileRes (job.output_path.getD "")
          (pyOrStr job.output_media_type "video/mp4")
          (pyOrStr job.output_filename (job_id ++ ".mp4"))) := by
  refine ⟨?_, ?_, ?_, ?_⟩
  · constructor
    · rintro ⟨p, m, f, hpm⟩
      rcases hl : jobs.lookup job_id with _ | job
      · simp only [get_job_video, hl] at hpm
        cases hpm
      · simp only [get_job_video, hl] at hpm
        by_cases hcond : job.status ≠ "done" ∨ pyTruthy job.output_path = false
        · rw [if_pos hcond] at hpm
          cases hpm
        · push_neg at hcond
          exact ⟨job, rfl, hcond.1, by simpa using hcond.2⟩
    · rintro ⟨job, hj, hs, hp⟩
      refine ⟨job.output_path.getD "", pyOrStr job.output_media_type "video/mp4",
        pyOrStr job.output_filename (job_id ++ ".mp4"), ?_⟩
      simp only [get_job_video, hj]
      rw [if_neg (by simp [hs, hp])]
  · intro h
    simp only [get_job_video, h]
  · intro job h hcond
    simp only [get_job_video, h]
    rw [if_pos hcond]
  · intro job h hs hp
    simp only [get_job_video, h]
    rw [if_neg (by simp [hs, hp])]

theorem get_job_video_iff_witness :
    get_job_video [] "missing" = .notFound "Job not found" :=
  (get_job_video_iff [] "missing").2.1 rfl

/-- C6: when no backend opens the source, the job's status becomes
`"error"` (terminal — the worker returns at once, so it never goes back
to `"processing"`), the error message contains the detected URL scheme
of the source, and exactly one `error` event is broadcast. -/
theorem open_failure_reports_error (job_id source : String) (fps : ℚ)
    (max_seconds : ℕ) (is_file : Bool) (env : Env) (st0 : JobState)
    (fs0 : List String) (h : env.capOk = false) :
    (processCapture job_id source fps max_seconds is_file env st0 fs0).st.status = "error" ∧
    (processCapture job_id source fps max_seconds is_file env st0 fs0).st.error =
      some (openFailMessage source) ∧
    (∃ a b, openFailMessage source = a ++ schemeOf source ++ b) ∧
    (processCapture job_id source fps max_seconds is_file env st0 fs0).events =
      [Event.error (openFailMessage source)] ∧
    (processCapture job_id source fps max_seconds is_file env st0 fs0).events.countP
      isTerminalEv = 1 := by
  simp only [processCapture, h, if_pos rfl]
  refine ⟨rfl, rfl, ?_, rfl, rfl⟩
  exact ⟨"Failed to open video source. URL scheme: ",
    ". Check the URL/credentials and network access.", rfl⟩

theorem open_failure_reports_error_witness :
    ({ capOk := false, width := 0, height := 0, source_fps := 0, writerOpens := []
       tmpNames := [], start_time := 0, iters := [] } : Env).capOk = false ∧
    (processCapture "job" "rtsp://cam/live" 5 0 false
      { capOk := false, width := 0, height := 0, source_fps := 0, writerOpens := []
        tmpNames := [], start_time := 0, iters := [] }
      { job_id := "job", status := "processing" } []).st.status = "error" :=
  ⟨rfl,
    (open_failure_reports_error "job" "rtsp://cam/live" 5 0 false
      { capOk := false, width := 0, height := 0, source_fps := 0, writerOpens := []
        tmpNames := [], start_time := 0, iters := [] }
      { job_id := "job", status := "processing" } [] rfl).1⟩

/-- C5: a file source that opens but yields no frame at the first read
ends the job `"done"` with `frames = 0`, `max_count = 0`, no error
recorded, and the single terminal event is a `done` event carrying
`frames = 0` and `max_count = 0`. -/
theorem empty_source_ends_done (job_id source : String) (fps : ℚ)
    (max_seconds : ℕ) (env : Env) (st0 : JobState) (fs0 : List String)
    (hcap : env.capOk = true) (hit : env.iters = [])
    (hst : st0.status = "processing") (hf : st0.frames = 0)
    (hm : st0.max_count = 0) (hc : st0.current_count = 0)
    (he : st0.error = none) :
    (processCapture job_id source fps max_seconds true env st0 fs0).st.status = "done" ∧
    (processCapture job_id source fps max_seconds true env st0 fs0).st.frames = 0 ∧
    (processCapture job_id source fps max_seconds true env st0 fs0).st.max_count = 0 ∧
    (processCapture job_id source fps max_seconds true env st0 fs0).st.error = none ∧
    ∃ u, (processCapture job_id source fps max_seconds true env st0 fs0).events =
      [Event.done 0 0 u] := by
  have NW := negotiateWriter_fields job_id env st0 true
  simp only [processCapture, hcap, runLoopAndFinish, hit, loopRun, lsOf]
  simp [NW.1, NW.2.1, NW.2.2.1, NW.2.2.2.1, NW.2.2.2.2.1, hst, hf, hm, hc, he]

theorem empty_source_ends_done_witness :
    (processCapture "job" "in.mp4" 5 0 true
      { capOk := true, width := 0, height := 0, source_fps := 0, writerOpens := []
        tmpNames := [], start_time := 0, iters := [] }
      { job_id := "job", status := "processing" } []).st.status = "done" :=
  (empty_source_ends_done "job" "in.mp4" 5 0
    { capOk := true, width := 0, height := 0, source_fps := 0, writerOpens := []
      tmpNames := [], start_time := 0, iters := [] }
    { job_id := "job", status := "processing" } [] rfl rfl rfl rfl rfl rfl rfl).1

/-- C2 counterexample: on the capture-open-failure path the worker
returns before the `try`/`finally` block, so the temporary input file
is still present after worker exit — refuting the claim that the file
is removed on all three exit paths. -/
theorem open_failure_leaves_temp_file :
    "/tmp/upload.mp4" ∈ (processCapture "job" "/tmp/upload.mp4" 5 0 true
      { capOk := false, width := 0, height := 0, source_fps := 0, writerOpens := []
        tmpNames := [], start_time := 0, iters := [] }
      { job_id := "job", status := "processing" } ["/tmp/upload.mp4"]).fs ∧
    (processCapture "job" "/tmp/upload.mp4" 5 0 true
      { capOk := false, width := 0, height := 0, source_fps := 0, writerOpens := []
        tmpNames := [], start_time := 0, iters := [] }
      { job_id := "job", status := "processing" } ["/tmp/upload.mp4"]).st.status =
      "error" ∧
    (processCapture "job" "/tmp/upload.mp4" 5 0 true
      { capOk := false, width := 0, height := 0, source_fps := 0, writerOpens := []
        tmpNames := [], start_time := 0, iters := [] }
      { job_id := "job", status := "processing" } ["/tmp/upload.mp4"]).exit = none := by
  decide

/-- C2 amended: for a file-backed job the temporary input file is
absent after worker exit whenever the capture opened (normal
completion, time-budget expiry, or mid-stream failure); on the
capture-open-failure path the worker returns before the cleanup block
and the file remains. -/
theorem temp_file_cleanup_amended (job_id source : String) (fps : ℚ)
    (max_seconds : ℕ) (env : Env) (st0 : JobState) (fs0 : List String) :
    (env.capOk = true →
      source ∉ (processCapture job_id source fps max_seconds true env st0 fs0).fs) ∧
    (env.capOk = false →
      (processCapture job_id source fps max_seconds true env st0 fs0).fs = fs0) := by
  constructor
  · intro hcap
    simp only [processCapture, hcap, runLoopAndFinish]
    simp [List.mem_filter]
  · intro hcap
    simp [processCapture, hcap]

theorem temp_file_cleanup_amended_witness :
    "/tmp/in.mp4" ∉ (processCapture "job" "/tmp/in.mp4" 5 0 true
      { capOk := true, width := 0, height := 0, source_fps := 0, writerOpens := []
        tmpNames := [], start_time := 0, iters := [] }
      { job_id := "job", status := "processing" } ["/tmp/in.mp4"]).fs :=
  (temp_file_cleanup_amended "job" "/tmp/in.mp4" 5 0
    { capOk := true, width := 0, height := 0, source_fps := 0, writerOpens := []
      tmpNames := [], start_time := 0, iters := [] }
    { job_id := "job", status := "processing" } ["/tmp/in.mp4"]).1 rfl

/-- A sample environment whose capture never opens, used by witnesses. -/
def sampleEnvFail : Env :=
  { capOk := false, width := 0, height := 0, source_fps := 0, writerOpens := []
    tmpNames := [], start_time := 0, iters := [] }

/-- A freshly created job state, as `create_job` produces it. -/
def sampleJob : JobState :=
  { job_id := "job", status := "processing" }

/-- C1 counterexample: a mid-stream exception makes the worker emit an
`error` event from the `except` clause and then still fall through to
the unconditional final `done` broadcast — two terminal events for one
job, refuting "exactly one terminal event per job on every exit path". -/
theorem midstream_exception_two_terminal_events :
    (processCapture "job" "in.mp4" 5 0 true
      { capOk := true, width := 0, height := 0, source_fps := 0, writerOpens := []
        tmpNames := [], start_time := 0
        iters := [{ tCheck := 0, read := some 0, tNow := 0, detectCount := 0
                    detectBoxes := [], enc := [], exc := some (.atDetect, "boom") }] }
      { job_id := "job", status := "processing" } []).events =
      [Event.error "boom", Event.done 0 1 none] ∧
    (processCapture "job" "in.mp4" 5 0 true
      { capOk := true, width := 0, height := 0, source_fps := 0, writerOpens := []
        tmpNames := [], start_time := 0
        iters := [{ tCheck := 0, read := some 0, tNow := 0, detectCount := 0
                    detectBoxes := [], enc := [], exc := some (.atDetect, "boom") }] }
      { job_id := "job", status := "processing" } []).events.countP isTerminalEv = 2 := by
  decide

/-- C1 amended: all `frame` events precede the terminal suffix on every
exit path; on open failure the suffix is the single `error` event, on
budget expiry and source exhaustion the single `done` event, but on a
mid-stream exception the suffix is an `error` event followed by a
`done` event (two terminal events rather than exactly one). -/
theorem terminal_event_discipline_amended (job_id source : String) (fps : ℚ)
    (max_seconds : ℕ) (is_file : Bool) (env : Env) (st0 : JobState)
    (fs0 : List String) :
    ∃ fevs, (∀ e ∈ fevs, isFrameEv e = true) ∧
      (env.capOk = false →
        (processCapture job_id source fps max_seconds is_file env st0 fs0).events =
          [Event.error (openFailMessage source)]) ∧
      (∀ m, env.capOk = true →
        (processCapture job_id source fps max_seconds is_file env st0 fs0).exit =
          some (.raised m) →
        ∃ mx fr u,
          (processCapture job_id source fps max_seconds is_file env st0 fs0).events =
            fevs ++ [Event.error m, Event.done mx fr u]) ∧
      (env.capOk = true →
        (∀ m, (processCapture job_id source fps max_seconds is_file env st0 fs0).exit ≠
          some (.raised m)) →
        ∃ mx fr u,
          (processCapture job_id source fps max_seconds is_file env st0 fs0).events =
            fevs ++ [Event.done mx fr u]) := by
  by_cases hcap : env.capOk = false
  · refine ⟨[], by simp, ?_, ?_, ?_⟩
    · intro _
      simp [processCapture, hcap]
    · intro m hct
      rw [hcap] at hct
      cases hct
    · intro hct
      rw [hcap] at hct
      cases hct
  · refine ⟨(loopRun (cfgOf fps max_seconds is_file env) env.iters
      (lsOf (negotiateWriter job_id env st0 is_file))).events,
      loop_events_frame _ _ _, ?_, ?_, ?_⟩
    · intro h
      exact absurd h hcap
    · intro m _ hexit
      simp only [processCapture, if_neg hcap, runLoopAndFinish] at hexit ⊢
      simp only [Option.some.injEq] at hexit
      simp only [hexit]
      exact ⟨_, _, _, List.append_assoc _ _ _⟩
    · intro _ hexit
      simp only [processCapture, if_neg hcap, runLoopAndFinish] at hexit ⊢
      rcases hx : (loopRun (cfgOf fps max_seconds is_file env) env.iters
          (lsOf (negotiateWriter job_id env st0 is_file))).exit with _ | _ | m
      · simp only [hx]
        exact ⟨_, _, _, by rw [List.append_nil]⟩
      · simp only [hx]
        exact ⟨_, _, _, by rw [List.append_nil]⟩
      · exact absurd (by rw [hx]) (hexit m)

theorem terminal_event_discipline_amended_witness :
    ∃ fevs, (∀ e ∈ fevs, isFrameEv e = true) ∧
      (sampleEnvFail.capOk = false →
        (processCapture "job" "in.mp4" 5 0 true sampleEnvFail sampleJob []).events =
          [Event.error (openFailMessage "in.mp4")]) ∧
      (∀ m, sampleEnvFail.capOk = true →
        (processCapture "job" "in.mp4" 5 0 true sampleEnvFail sampleJob []).exit =
          some (.raised m) →
        ∃ mx fr u,
          (processCapture "job" "in.mp4" 5 0 true sampleEnvFail sampleJob []).events =
            fevs ++ [Event.error m, Event.done mx fr u]) ∧
      (sampleEnvFail.capOk = true →
        (∀ m, (processCapture "job" "in.mp4" 5 0 true sampleEnvFail sampleJob []).exit ≠
          some (.raised m)) →
        ∃ mx fr u,
          (processCapture "job" "in.mp4" 5 0 true sampleEnvFail sampleJob []).events =
            fevs ++ [Event.done mx fr u]) :=
  terminal_event_discipline_amended "job" "in.mp4" 5 0 true sampleEnvFail sampleJob []

/-- C3: for a file source with native rate 30 and requested rate 5 the
computed stride is 6; a frame is analyzed exactly when its 1-based
index is divisible by 6; every completed iteration's `frames` counter
equals its frame index; and non-analyzed frames are drawn with the
boxes retained from the previous iteration (which start out empty). -/
theorem file_stride_sampling (job_id source : String) (max_seconds : ℕ)
    (env : Env) (st0 : JobState) (fs0 : List String)
    (hcap : env.capOk = true) (hfps : env.source_fps = 30) :
    computeFrameSkip true env.source_fps 5 = 6 ∧
    (∀ k tr, (processCapture job_id source 5 max_seconds true env st0 fs0).traces.get? k =
      some tr → tr.idx = k + 1) ∧
    (∀ tr ∈ (processCapture job_id source 5 max_seconds true env st0 fs0).traces,
      (tr.did = true ↔ tr.idx % 6 = 0) ∧
      tr.framesAfter = tr.idx ∧
      (tr.did = false → tr.drawn = tr.retained)) ∧
    List.Chain' (fun a b => b.retained = a.drawn)
      (processCapture job_id source 5 max_seconds true env st0 fs0).traces ∧
    (∀ tr0 ∈ (processCapture job_id source 5 max_seconds true env st0 fs0).traces.head?,
      tr0.retained = []) := by
  have hskip : computeFrameSkip true env.source_fps 5 = 6 := by
    rw [hfps]
    norm_num [computeFrameSkip, pythonRound]
    decide
  have hne : ¬ env.capOk = false := by
    simp [hcap]
  have hpc : (processCapture job_id source 5 max_seconds true env st0 fs0).traces =
      (loopRun (cfgOf 5 max_seconds true env) env.iters
        (lsOf (negotiateWriter job_id env st0 true))).traces := by
    simp only [processCapture, if_neg hne, runLoopAndFinish]
  have LT := loop_traces (cfgOf 5 max_seconds true env) env.iters
    (lsOf (negotiateWriter job_id env st0 true))
  refine ⟨hskip, ?_, ?_, ?_, ?_⟩
  · intro k tr htr
    rw [hpc] at htr
    rcases List.get?_eq_some.mp htr with ⟨h, hget⟩
    have := LT.1 k h
    rw [hget] at this
    simpa [lsOf] using this
  · intro tr htr
    rw [hpc] at htr
    have H := LT.2.1 tr htr
    have hdid := H.2.1 (by simp [cfgOf])
    have hskip' : (cfgOf 5 max_seconds true env).frame_skip = 6 := by
      simp only [cfgOf]
      exact hskip
    rw [hskip'] at hdid
    refine ⟨?_, H.1, H.2.2⟩
    rw [hdid]
    simp
  · rw [hpc]
    exact LT.2.2.1
  · intro tr0 htr0
    rw [hpc] at htr0
    have := LT.2.2.2 tr0 htr0
    simpa [lsOf] using this

theorem file_stride_sampling_witness :
    computeFrameSkip true
      ({ capOk := true, width := 0, height := 0, source_fps := 30, writerOpens := []
         tmpNames := [], start_time := 0, iters := [] } : Env).source_fps 5 = 6 :=
  (file_stride_sampling "job" "in.mp4" 0
    { capOk := true, width := 0, height := 0, source_fps := 30, writerOpens := []
      tmpNames := [], start_time := 0, iters := [] }
    sampleJob [] rfl rfl).1

/-- C4: `max_count` never decreases at any loop step and always
dominates the `current_count` it is updated with; `frames` never
decreases; and over the broadcast event sequence the `max_count` and
frame-progress fields are monotone, with every frame event's `count`
bounded by its `max_count`. -/
theorem counters_monotone (job_id source : String) (fps : ℚ) (max_seconds : ℕ)
    (is_file : Bool) (env : Env) (st0 : JobState) (fs0 : List String)
    (hf : st0.frames = 0) (hcm : st0.current_count ≤ st0.max_count) :
    (∀ (cfg : LoopCfg) (st : LoopSt) (i : IterIn),
      st.max_count ≤ (stepSt (stepIter cfg st i)).max_count ∧
      (st.frames = st.frame_index → st.frames ≤ (stepSt (stepIter cfg st i)).frames) ∧
      (st.current_count ≤ st.max_count →
        (stepSt (stepIter cfg st i)).current_count ≤
          (stepSt (stepIter cfg st i)).max_count)) ∧
    List.Pairwise (· ≤ ·)
      ((processCapture job_id source fps max_seconds is_file env st0 fs0).events.filterMap
        evMax) ∧
    List.Pairwise (· ≤ ·)
      ((processCapture job_id source fps max_seconds is_file env st0 fs0).events.filterMap
        evFrames) ∧
    (∀ e ∈ (processCapture job_id source fps max_seconds is_file env st0 fs0).events,
      ∀ c ∈ evCount e, ∀ m ∈ evMax e, c ≤ m) ∧
    st0.max_count ≤
      (processCapture job_id source fps max_seconds is_file env st0 fs0).st.max_count ∧
    (processCapture job_id source fps max_seconds is_file env st0 fs0).st.current_count ≤
      (processCapture job_id source fps max_seconds is_file env st0 fs0).st.max_count := by
  have hstep : ∀ (cfg : LoopCfg) (st : LoopSt) (i : IterIn),
      st.max_count ≤ (stepSt (stepIter cfg st i)).max_count ∧
      (st.frames = st.frame_index → st.frames ≤ (stepSt (stepIter cfg st i)).frames) ∧
      (st.current_count ≤ st.max_count →
        (stepSt (stepIter cfg st i)).current_count ≤
          (stepSt (stepIter cfg st i)).max_count) :=
    fun cfg st i =>
      ⟨(step_basic cfg st i).1, fun hfi => ((step_basic cfg st i).2.2.1 hfi).2,
        (step_basic cfg st i).2.2.2⟩
  by_cases hcap : env.capOk = false
  · refine ⟨hstep, ?_, ?_, ?_, ?_, ?_⟩
    · simp [processCapture, hcap, evMax]
    · simp [processCapture, hcap, evFrames]
    · simp [processCapture, hcap, evCount]
    · simp [processCapture, hcap]
    · simp only [processCapture, hcap, if_pos rfl]
      exact hcm
  · have NW := negotiateWriter_fields job_id env st0 is_file
    have hfi0 : (lsOf (negotiateWriter job_id env st0 is_file)).frames =
        (lsOf (negotiateWriter job_id env st0 is_file)).frame_index := by
      simp [lsOf, NW.1, hf]
    have hcm0 : (lsOf (negotiateWriter job_id env st0 is_file)).current_count ≤
        (lsOf (negotiateWriter job_id env st0 is_file)).max_count := by
      simpa [lsOf, NW.2.1, NW.2.2.1] using hcm
    have EM := loop_evmax (cfgOf fps max_seconds is_file env) env.iters
      (lsOf (negotiateWriter job_id env st0 is_file)) hfi0 hcm0
    have EF := loop_evframes (cfgOf fps max_seconds is_file env) env.iters
      (lsOf (negotiateWriter job_id env st0 is_file)) hfi0 hcm0
    have CM := loop_count_le_max (cfgOf fps max_seconds is_file env) env.iters
      (lsOf (negotiateWriter job_id env st0 is_file))
    have FIN := loop_fin (cfgOf fps max_seconds is_file env) env.iters
      (lsOf (negotiateWriter job_id env st0 is_file)) hfi0 hcm0
    rcases runLoopAndFinish_events_shape job_id source fps max_seconds is_file env
      (negotiateWriter job_id env st0 is_file) fs0 with ⟨excEvs, hev, hexc⟩
    have RS := runLoopAndFinish_st job_id source fps max_seconds is_file env
      (negotiateWriter job_id env st0 is_file) fs0
    have hpc : processCapture job_id source fps max_seconds is_file env st0 fs0 =
        runLoopAndFinish job_id source fps max_seconds is_file env
          (negotiateWriter job_id env st0 is_file) fs0 := by
      simp only [processCapture, if_neg hcap]
    have hexcMax : excEvs.filterMap evMax = [] := by
      rcases hexc with rfl | ⟨m, rfl⟩ <;> simp [evMax]
    have hexcFr : excEvs.filterMap evFrames = [] := by
      rcases hexc with rfl | ⟨m, rfl⟩ <;> simp [evFrames]
    refine ⟨hstep, ?_, ?_, ?_, ?_, ?_⟩
    · rw [hpc, hev]
      simp only [List.filterMap_append, hexcMax, List.append_nil]
      have hdone : List.filterMap evMax
          [Event.done
            (loopRun (cfgOf fps max_seconds is_file env) env.iters
              (lsOf (negotiateWriter job_id env st0 is_file))).fin.max_count
            (loopRun (cfgOf fps max_seconds is_file env) env.iters
              (lsOf (negotiateWriter job_id env st0 is_file))).fin.frames
            (if pyTruthy (negotiateWriter job_id env st0 is_file).output_path = true then
              some ("/api/job/" ++ job_id ++ "/video")
            else none)] =
          [(loopRun (cfgOf fps max_seconds is_file env) env.iters
            (lsOf (negotiateWriter job_id env st0 is_file))).fin.max_count] := by
        simp [evMax]
      rw [hdone]
      exact pairwise_le_append_single _ _ EM.2 (fun a ha => (EM.1 a ha).2)
    · rw [hpc, hev]
      simp only [List.filterMap_append, hexcFr, List.append_nil]
      have hdone : List.filterMap evFrames
          [Event.done
            (loopRun (cfgOf fps max_seconds is_file env) env.iters
              (lsOf (negotiateWriter job_id env st0 is_file))).fin.max_count
            (loopRun (cfgOf fps max_seconds is_file env) env.iters
              (lsOf (negotiateWriter job_id env st0 is_file))).fin.frames
            (if pyTruthy (negotiateWriter job_id env st0 is_file).output_path = true then
              some ("/api/job/" ++ job_id ++ "/video")
            else none)] =
          [(loopRun (cfgOf fps max_seconds is_file env) env.iters
            (lsOf (negotiateWriter job_id env st0 is_file))).fin.frames] := by
        simp [evFrames]
      rw [hdone]
      refine pairwise_le_append_single _ _ EF.2 (fun a ha => ?_)
      have := (EF.1 a ha).2
      rw [FIN.2.1]
      exact this
    · rw [hpc, hev]
      intro e he c hc m hm
      rcases List.mem_append.mp he with he | he
      · rcases List.mem_append.mp he with he | he
        · exact CM e he c hc m hm
        · rcases hexc with rfl | ⟨m2, rfl⟩
          · simp at he
          · rcases List.mem_singleton.mp he with rfl
            simp [evCount] at hc
      · rcases List.mem_singleton.mp he with rfl
        simp [evCount] at hc
    · rw [hpc, RS.1]
      have hmx : (lsOf (negotiateWriter job_id env st0 is_file)).max_count =
          st0.max_count := by
        simp [lsOf, NW.2.2.1]
      rw [← hmx]
      exact FIN.1
    · rw [hpc, RS.1, RS.2.1]
      exact FIN.2.2.2

theorem counters_monotone_witness :
    sampleJob.max_count ≤
      (processCapture "job" "in.mp4" 5 0 true sampleEnvFail sampleJob []).st.max_count :=
  (counters_monotone "job" "in.mp4" 5 0 true sampleEnvFail sampleJob [] rfl
    (by decide)).2.2.2.2.1

/-- C9: `last_frame_id` advances only together with a simultaneous
store of a non-empty encoded buffer in `last_frame` (one step at a
time); a failed JPEG encode (`frame_bytes` empty) leaves both fields
unchanged for that iteration; hence whenever `last_frame_id > 0` the
job holds a non-empty snapshot, over the whole worker run. -/
theorem snapshot_invariant (job_id source : String) (fps : ℚ) (max_seconds : ℕ)
    (is_file : Bool) (env : Env) (st0 : JobState) (fs0 : List String)
    (hP : st0.last_frame_id > 0 → ∃ b, st0.last_frame = some b ∧ b ≠ []) :
    (∀ (cfg : LoopCfg) (st : LoopSt) (i : IterIn),
      ((st.last_frame_id > 0 → ∃ b, st.last_frame = some b ∧ b ≠ []) →
        ((stepSt (stepIter cfg st i)).last_frame_id > 0 →
          ∃ b, (stepSt (stepIter cfg st i)).last_frame = some b ∧ b ≠ [])) ∧
      (i.enc = [] →
        (stepSt (stepIter cfg st i)).last_frame = st.last_frame ∧
        (stepSt (stepIter cfg st i)).last_frame_id = st.last_frame_id) ∧
      ((stepSt (stepIter cfg st i)).last_frame_id ≠ st.last_frame_id →
        (stepSt (stepIter cfg st i)).last_frame = some i.enc ∧ i.enc ≠ [] ∧
        (stepSt (stepIter cfg st i)).last_frame_id = st.last_frame_id + 1)) ∧
    ((processCapture job_id source fps max_seconds is_file env st0 fs0).st.last_frame_id > 0 →
      ∃ b, (processCapture job_id source fps max_seconds is_file env st0 fs0).st.last_frame =
        some b ∧ b ≠ []) := by
  refine ⟨fun cfg st i => step_snap cfg st i, ?_⟩
  by_cases hcap : env.capOk = false
  · simp only [processCapture, hcap, if_pos rfl]
    exact hP
  · have NW := negotiateWriter_fields job_id env st0 is_file
    have RS := runLoopAndFinish_st job_id source fps max_seconds is_file env
      (negotiateWriter job_id env st0 is_file) fs0
    have hpc : processCapture job_id source fps max_seconds is_file env st0 fs0 =
        runLoopAndFinish job_id source fps max_seconds is_file env
          (negotiateWriter job_id env st0 is_file) fs0 := by
      simp only [processCapture, if_neg hcap]
    rw [hpc, RS.2.2.2.2, RS.2.2.2.1]
    exact loop_snap _ _ _
      (by simpa [lsOf, NW.2.2.2.2.2.1, NW.2.2.2.2.2.2] using hP)

theorem snapshot_invariant_witness :
    ∃ b, (processCapture "job" "in.mp4" 5 0 true
      { capOk := true, width := 0, height := 0, source_fps := 0, writerOpens := []
        tmpNames := [], start_time := 0
        iters := [{ tCheck := 0, read := some 0, tNow := 0, detectCount := 0
                    detectBoxes := [], enc := [7], exc := none }] }
      sampleJob []).st.last_frame = some b ∧ b ≠ [] :=
  (snapshot_invariant "job" "in.mp4" 5 0 true
    { capOk := true, width := 0, height := 0, source_fps := 0, writerOpens := []
      tmpNames := [], start_time := 0
      iters := [{ tCheck := 0, read := some 0, tNow := 0, detectCount := 0
                  detectBoxes := [], enc := [7], exc := none }] }
    sampleJob [] (by simp [sampleJob])).2 (by decide)

/-- The capture accepted by the backend loop is the first present
backend, in candidate order, whose open attempt succeeds. -/
theorem tryBackends_result (e : CvEnv) (is_file : Bool) (tms : ℕ)
    (l : List Backend) :
    (tryBackends e is_file tms l).1 =
      (l.filter (fun b => present e b)).find? (fun b => opensB e b) := by
  induction l with
  | nil => simp [tryBackends]
  | cons c rest ih =>
    by_cases hp : present e c = false
    · simp only [tryBackends, if_pos hp, List.filter_cons, hp]
      simpa using ih
    · have hp' : present e c = true := by
        cases h : present e c
        · exact absurd h hp
        · rfl
      by_cases ho : opensB e c = true
      · simp only [tryBackends, if_neg hp, if_pos ho, List.filter_cons, hp', if_true]
        simp [List.find?, ho]
      · simp only [tryBackends, if_neg hp, if_neg ho, List.filter_cons, hp', if_true]
        simp only [List.find?, ho]
        exact ih

theorem timeoutActions_no_open (e : CvEnv) (is_file : Bool) (tms : ℕ)
    (x : Option Backend) :
    CvAction.openAttempt x ∉ timeoutActions e is_file tms := by
  unfold timeoutActions
  repeat' split
  all_goals simp

theorem tryBackends_no_open_none (e : CvEnv) (is_file : Bool) (tms : ℕ)
    (l : List Backend) :
    CvAction.openAttempt none ∉ (tryBackends e is_file tms l).2 := by
  induction l with
  | nil => simp [tryBackends]
  | cons c rest ih =>
    by_cases hp : present e c = false
    · simp only [tryBackends, if_pos hp]
      exact ih
    · by_cases ho : opensB e c = true
      · simp only [tryBackends, if_neg hp, if_pos ho]
        intro hmem
        simp only [List.cons_append, List.mem_cons, List.mem_append] at hmem
        rcases hmem with hmem | hmem | hmem
        · cases hmem
        · exact absurd hmem (timeoutActions_no_open e is_file tms none)
        · simp at hmem
      · simp only [tryBackends, if_neg hp, if_neg ho]
        intro hmem
        simp only [List.cons_append, List.mem_cons, List.mem_append] at hmem
        rcases hmem with hmem | hmem
        · cases hmem
        · rcases hmem with (hmem | hmem) | hmem
          · exact absurd hmem (timeoutActions_no_open e is_file tms none)
          · simp at hmem
          · exact absurd hmem ih

theorem tryBackends_release (e : CvEnv) (is_file : Bool) (tms : ℕ)
    (l : List Backend) :
    ∀ b, (tryBackends e is_file tms l).1 ≠ some b →
      CvAction.openAttempt (some b) ∈ (tryBackends e is_file tms l).2 →
      CvAction.release (some b) ∈ (tryBackends e is_file tms l).2 := by
  induction l with
  | nil => simp [tryBackends]
  | cons c rest ih =>
    intro b hne hmem
    by_cases hp : present e c = false
    · simp only [tryBackends, if_pos hp] at hne hmem ⊢
      exact ih b hne hmem
    · by_cases ho : opensB e c = true
      · simp only [tryBackends, if_pos ho, if_neg hp] at hne hmem ⊢
        simp only [List.cons_append, List.mem_cons, List.mem_append] at hmem
        rcases hmem with hmem | hmem | hmem
        · cases hmem
          exact absurd rfl hne
        · exact absurd hmem (timeoutActions_no_open e is_file tms (some b))
        · simp at hmem
      · simp only [tryBackends, if_neg ho, if_neg hp] at hne hmem ⊢
        simp only [List.cons_append, List.mem_cons, List.mem_append] at hmem ⊢
        rcases hmem with hmem | hmem
        · cases hmem
          exact Or.inr (Or.inl (Or.inr (Or.inl rfl)))
        · rcases hmem with (hmem | hmem) | hmem
          · exact absurd hmem (timeoutActions_no_open e is_file tms (some b))
          · rcases hmem with hmem | hmem
            · cases hmem
            · simp at hmem
          · exact Or.inr (Or.inr (ih b hne hmem))


/-- The backend `_open_capture` ends up accepting: the first present
candidate, in list order, whose open attempt succeeds. -/
def chosenBackend (e : CvEnv) (is_file : Bool) : Option Backend :=
  ((backendList is_file).filter (fun b => present e b)).find? (fun b => opensB e b)

/-- C7: the candidate order is FFMPEG-then-any for files and the longer
network-oriented list for live sources; the accepted capture is the
first present candidate that opens; when no listed candidate succeeds
exactly one final attempt with no explicit backend is made (and none
otherwise); every attempted-but-not-accepted candidate is released;
and for a live `rtsp://` source the TCP-transport/read-stall options
are set as the very first action, before any open attempt. -/
theorem open_capture_policy (e : CvEnv) (source : String) (is_file : Bool)
    (open_timeout_ms ffmpeg_timeout_us : Option ℕ) :
    backendList true = [.FFMPEG, .ANY] ∧
    backendList false = [.FFMPEG, .GSTREAMER, .MSMF, .ANY] ∧
    (open_capture e source is_file open_timeout_ms ffmpeg_timeout_us).1 =
      (match chosenBackend e is_file with
        | some b => some (some b)
        | none => if e.openDefault then some none else none) ∧
    (chosenBackend e is_file = none →
      (open_capture e source is_file open_timeout_ms ffmpeg_timeout_us).2.count
        (CvAction.openAttempt none) = 1) ∧
    (∀ b, chosenBackend e is_file = some b →
      CvAction.openAttempt none ∉
        (open_capture e source is_file open_timeout_ms ffmpeg_timeout_us).2) ∧
    (∀ b, (open_capture e source is_file open_timeout_ms ffmpeg_timeout_us).1 ≠
        some (some b) →
      CvAction.openAttempt (some b) ∈
        (open_capture e source is_file open_timeout_ms ffmpeg_timeout_us).2 →
      CvAction.release (some b) ∈
        (open_capture e source is_file open_timeout_ms ffmpeg_timeout_us).2) ∧
    (is_file = false → source.toLower.startsWith "rtsp://" = true →
      (open_capture e source is_file open_timeout_ms ffmpeg_timeout_us).2.head? =
        some (CvAction.setRtspOptions
          ("rtsp_transport;tcp|stimeout;" ++
            toString (pyOrNat ffmpeg_timeout_us 5000000)))) := by
  have htb := tryBackends_result e is_file (pyOrNat open_timeout_ms 5000)
    (backendList is_file)
  have hnn := tryBackends_no_open_none e is_file (pyOrNat open_timeout_ms 5000)
    (backendList is_file)
  have hrel := tryBackends_release e is_file (pyOrNat open_timeout_ms 5000)
    (backendList is_file)
  refine ⟨rfl, rfl, ?_, ?_, ?_, ?_, ?_⟩
  · rcases hf : chosenBackend e is_file with _ | b
    · have htb' : (tryBackends e is_file (pyOrNat open_timeout_ms 5000)
          (backendList is_file)).1 = none := by
        rw [htb]
        exact hf
      simp only [open_capture, htb']
      rcases hd : e.openDefault <;> simp [hd]
    · have htb' : (tryBackends e is_file (pyOrNat open_timeout_ms 5000)
          (backendList is_file)).1 = some b := by
        rw [htb]
        exact hf
      simp only [open_capture, htb']
  · intro hf
    have htb' : (tryBackends e is_file (pyOrNat open_timeout_ms 5000)
        (backendList is_file)).1 = none := by
      rw [htb]
      exact hf
    simp only [open_capture, htb']
    rcases hd : e.openDefault
    · simp only [Bool.false_eq_true, if_false]
      rw [List.count_append, List.count_append]
      have h1 : List.count (CvAction.openAttempt none)
          (if is_file = false ∧ source.toLower.startsWith "rtsp://" = true then
            [CvAction.setRtspOptions
              ("rtsp_transport;tcp|stimeout;" ++
                toString (pyOrNat ffmpeg_timeout_us 5000000))]
          else []) = 0 := by
        split <;> simp [List.count_cons]
      have h2 : List.count (CvAction.openAttempt none)
          (tryBackends e is_file (pyOrNat open_timeout_ms 5000)
            (backendList is_file)).2 = 0 :=
        List.count_eq_zero.mpr hnn
      rw [h1, h2]
      decide
    · simp only [if_true, ite_true]
      rw [List.count_append, List.count_append]
      have h1 : List.count (CvAction.openAttempt none)
          (if is_file = false ∧ source.toLower.startsWith "rtsp://" = true then
            [CvAction.setRtspOptions
              ("rtsp_transport;tcp|stimeout;" ++
                toString (pyOrNat ffmpeg_timeout_us 5000000))]
          else []) = 0 := by
        split <;> simp [List.count_cons]
      have h2 : List.count (CvAction.openAttempt none)
          (tryBackends e is_file (pyOrNat open_timeout_ms 5000)
            (backendList is_file)).2 = 0 :=
        List.count_eq_zero.mpr hnn
      rw [h1, h2]
      decide
  · intro b hf
    have htb' : (tryBackends e is_file (pyOrNat open_timeout_ms 5000)
        (backendList is_file)).1 = some b := by
      rw [htb]
      exact hf
    simp only [open_capture, htb']
    intro hmem
    simp only [List.mem_append] at hmem
    rcases hmem with (hmem | hmem) | hmem
    · revert hmem
      split <;> simp
    · exact absurd hmem hnn
    · simp at hmem
  · intro b hne hmem
    rcases hf : (tryBackends e is_file (pyOrNat open_timeout_ms 5000)
        (backendList is_file)).1 with _ | b2
    · simp only [open_capture, hf] at hne hmem ⊢
      rcases hd : e.openDefault
      · simp only [hd, Bool.false_eq_true, if_false] at hne hmem ⊢
        simp only [List.mem_append] at hmem ⊢
        rcases hmem with (hmem | hmem) | hmem
        · revert hmem
          split <;> simp
        · exact Or.inl (Or.inr (hrel b (by rw [hf]; simp) hmem))
        · simp at hmem
      · simp only [hd, if_true, ite_true] at hne hmem ⊢
        simp only [List.mem_append] at hmem ⊢
        rcases hmem with (hmem | hmem) | hmem
        · revert hmem
          split <;> simp
        · exact Or.inl (Or.inr (hrel b (by rw [hf]; simp) hmem))
        · simp at hmem
    · by_cases hbb : b2 = b
      · subst hbb
        simp only [open_capture, hf] at hne
        exact absurd rfl hne
      · simp only [open_capture, hf] at hne hmem ⊢
        simp only [List.mem_append] at hmem ⊢
        rcases hmem with (hmem | hmem) | hmem
        · revert hmem
          split <;> simp
        · refine Or.inl (Or.inr (hrel b ?_ hmem))
          rw [hf]
          intro hc
          cases hc
          exact hbb rfl
        · simp at hmem
  · intro hfile hrtsp
    simp only [open_capture, hfile, hrtsp]
    rcases hx : (tryBackends e false (pyOrNat open_timeout_ms 5000)
        (backendList false)).1 with _ | b
    · rcases hd : e.openDefault <;> simp [hx, hd]
    · simp [hx]

theorem open_capture_policy_witness :
    (open_capture
      { hasFFMPEG := true, hasGSTREAMER := false, hasMSMF := false, hasANY := true
        openFFMPEG := false, openGSTREAMER := false, openMSMF := false, openANY := false
        openDefault := false, hasOpenTimeoutProp := true, hasReadTimeoutProp := true }
      "video.mp4" true none none).1 =
      (match chosenBackend
          { hasFFMPEG := true, hasGSTREAMER := false, hasMSMF := false, hasANY := true
            openFFMPEG := false, openGSTREAMER := false, openMSMF := false, openANY := false
            openDefault := false, hasOpenTimeoutProp := true, hasReadTimeoutProp := true }
          true with
        | some b => some (some b)
        | none =>
          if ({ hasFFMPEG := true, hasGSTREAMER := false, hasMSMF := false, hasANY := true
                openFFMPEG := false, openGSTREAMER := false, openMSMF := false
                openANY := false, openDefault := false, hasOpenTimeoutProp := true
                hasReadTimeoutProp := true } : CvEnv).openDefault then
            some none
          else none) :=
  (open_capture_policy
    { hasFFMPEG := true, hasGSTREAMER := false, hasMSMF := false, hasANY := true
      openFFMPEG := false, openGSTREAMER := false, openMSMF := false, openANY := false
      openDefault := false, hasOpenTimeoutProp := true, hasReadTimeoutProp := true }
    "video.mp4" true none none).2.2.1

end PMC
